import Mathlib

/-!
Verification of the pulsar proxy-server example (`examples/proxyserver/manage.py`)
against its natural-language specification.  The Python source is shallowly
embedded: each handler becomes a pure Lean function from an explicit state to a
new state paired with the list of observable actions it performs, in program
order.  Framework pieces that are not part of the example module
(`pulsar.utils.httpurl.Headers`, `pulsar.apps.wsgi`) are modelled from the
specification and marked as such.
-/

/-- Byte strings (Python `bytes`) as lists of byte values. -/
abbrev Bytes := List Nat

/-- A single header entry: name and value. -/
abbrev Header := String × String

/-- `strBytes s` is the byte content of the string `s`, used where the Python
code turns a `str` payload into the single response chunk. -/
def strBytes (s : String) : Bytes := s.data.map Char.toNat

/-- Python `str.lower()` on a header name, character by character. -/
def lowerStr (s : String) : String := String.mk (s.data.map Char.toLower)

/-- Python `uri.startswith("/")`: does the string begin with a slash? -/
def startsWithSlash (s : String) : Bool := s.data.head? == some '/'

/-- The WSGI environ fields the proxy reads.  WSGI exposes inbound headers as
`HTTP_`-prefixed keys of one dictionary; `httpHeaders` lists those keys (with
the `HTTP_` prefix stripped) with their values, in dictionary iteration order.
`CONTENT_TYPE` and `CONTENT_LENGTH` appear unprefixed in a WSGI environ, hence
the separate fields.  `wsgiInput` is the content of the `wsgi.input` stream,
`none` when the key is absent or carries no stream. -/
structure Environ where
  rawUri : String
  requestMethod : String
  serverProtocol : String
  remoteAddr : String
  wsgiInput : Option Bytes
  httpHeaders : List (String × String)
  contentType : Option String
  contentLength : Option String
  deriving DecidableEq, Repr

/-- `environ.get("HTTP_EXPECT")`: look up the `EXPECT` key among the
`HTTP_`-prefixed environ entries. -/
def Environ.httpExpect (e : Environ) : Option String :=
  (e.httpHeaders.find? (fun p => p.1 == "EXPECT")).map (fun p => p.2)

/-- `environ.get("wsgi.input") or io.BytesIO()` followed by `stream.read()`:
the whole inbound body, or the content of the substituted empty in-memory
stream when the environ carries none. -/
def readInput (e : Environ) : Bytes := (e.wsgiInput).getD []

/-- The environ lookup performed for the `ENVIRON_HEADERS` mirroring:
`environ.get(head.replace("-", "_").upper())`. -/
def Environ.envHeaderValue (e : Environ) (head : String) : Option String :=
  if head = "content-type" then e.contentType
  else if head = "content-length" then e.contentLength
  else none

/-- `k[5:].replace("_", "-")`: the header name derived from an environ key,
with every underscore replaced by a hyphen. -/
def headerName (k : String) : String :=
  String.mk (k.data.map (fun c => if c = '_' then '-' else c))

/-- `ENVIRON_HEADERS = ("content-type", "content-length")`. -/
def ENVIRON_HEADERS : List String := ["content-type", "content-length"]

/-- Modelled from the spec: assignment `headers[name] = value` on the ordered
case-insensitive multi-map `Headers` (pulsar.utils.httpurl is not under src/).
Per the spec the user-agent middleware "Replaces (not appends)", so an existing
name has its value replaced in place; a fresh name is appended at the end. -/
def setHeader (hs : List Header) (name value : String) : List Header :=
  if hs.any (fun p => lowerStr p.1 == lowerStr name) then
    hs.map (fun p => if lowerStr p.1 == lowerStr name then (name, value) else p)
  else hs ++ [(name, value)]

/-- Modelled from the spec: `headers.add_header(name, value)` "Appends a
header" to the ordered multi-map (pulsar.utils.httpurl is not under src/). -/
def addHeader (hs : List Header) (name value : String) : List Header :=
  hs ++ [(name, value)]

/-- A header middleware: receives the wsgi environ and the outbound header
container, returns the updated container. -/
abbrev Middleware := Environ → List Header → List Header

/-- `x_forwarded_for(environ, headers)`: add the `x-forwarded-for` header with
the remote address. -/
def x_forwarded_for (e : Environ) (hs : List Header) : List Header :=
  addHeader hs "x-forwarded-for" e.remoteAddr

/-- `user_agent(agent)(environ, headers)`: override the user-agent header. -/
def user_agent (agent : String) (_e : Environ) (hs : List Header) : List Header :=
  setHeader hs "user-agent" agent

/-- The body of the `ENVIRON_HEADERS` loop of `request_headers`:
`v = environ.get(k); if v: headers[head] = v`. -/
def envStep (e : Environ) (acc : List Header) (head : String) : List Header :=
  match e.envHeaderValue head with
  | some v => if v = "" then acc else setHeader acc head v
  | none => acc

/-- `ProxyServerWsgiHandler.request_headers(environ)`: copy every
`HTTP_`-prefixed environ entry into a fresh `Headers` container, mirror the
`ENVIRON_HEADERS` entries when their environ value is truthy, then apply each
headers middleware in registration order. -/
def request_headers (mws : List Middleware) (e : Environ) : List Header :=
  let base := e.httpHeaders.foldl (fun acc p => setHeader acc (headerName p.1) p.2) []
  let base := ENVIRON_HEADERS.foldl (envStep e) base
  mws.foldl (fun acc mw => mw e acc) base

/-- Modelled from the spec: the hop-by-hop header set `wsgi.HOP_HEADERS`
(pulsar.apps.wsgi is not under src/): connection, keep-alive,
proxy-authenticate, proxy-authorization, te, trailers, transfer-encoding,
upgrade; matching is case-insensitive. -/
def HOP_HEADERS : List String :=
  ["connection", "keep-alive", "proxy-authenticate", "proxy-authorization",
   "te", "trailers", "transfer-encoding", "upgrade"]

/-- `ProxyResponse.remove_hop_headers(headers)`: keep exactly the headers whose
lower-cased name is not in the hop-by-hop set. -/
def remove_hop_headers (headers : List Header) : List Header :=
  headers.filter (fun p => !(HOP_HEADERS.contains (lowerStr p.1)))

/-- The observable effects of the proxy handlers, in program order. -/
inductive Act where
  | readBody (b : Bytes)
  | dispatch (method uri : String) (body : Option Bytes) (headers : List Header)
      (version : String)
  | transportWrite (b : Bytes)
  | startResponse (status : String) (headers : List Header)
  | enqueue (b : Bytes)
  | upgradeDownstream
  | upgradeUpstream
  | setRequestNil
  | finished
  | abortDownstream
  deriving DecidableEq, Repr

/-- The per-request response pipeline state of `ProxyResponse`:
`_started`, `_headers`, `_done` and the chunk queue. -/
structure RState where
  started : Bool := false
  headers : Option (List Header) := none
  done : Bool := false
  queue : List Bytes := []
  deriving DecidableEq, Repr

/-- The initial `ProxyResponse` state created by `__init__`. -/
def initState : RState := {}

/-- The data carried by one `data_processed` callback from the upstream HTTP
client: `get_status()`, the two parser flags, the response headers and the
`recv_body()` chunk. -/
structure UpstreamEvent where
  status : String
  headersComplete : Bool
  messageComplete : Bool
  respHeaders : List Header
  body : Bytes
  deriving DecidableEq, Repr

/-- The Expect branch at the top of `data_processed`: when the upstream status
is `100 Continue`, read the deferred inbound body and write it through the
upstream transport. -/
def acts100 (e : Environ) (ev : UpstreamEvent) : List Act :=
  if ev.status = "100 Continue" then
    [Act.readBody (readInput e), Act.transportWrite (readInput e)]
  else []

/-- `ProxyResponse.data_processed(response)`: handle one upstream parser
advance.  Returns the updated state and the actions performed, in order. -/
def data_processed (e : Environ) (s : RState) (ev : UpstreamEvent) :
    RState × List Act :=
  let pre := acts100 e ev
  if ev.headersComplete then
    match s.headers with
    | none =>
        let hs := remove_hop_headers ev.respHeaders
        ({ s with headers := some hs,
                  done := s.done || ev.messageComplete,
                  queue := s.queue ++ [ev.body] },
         pre ++ [Act.startResponse ev.status hs, Act.enqueue ev.body])
    | some _ =>
        ({ s with done := s.done || ev.messageComplete,
                  queue := s.queue ++ [ev.body] },
         pre ++ [Act.enqueue ev.body])
  else (s, pre)

/-- `ProxyResponse.pre_request(response)`: mark the response started and bind
`data_processed` to the upstream data event. -/
def ProxyResponse.pre_request (s : RState) : RState :=
  { s with started := true }

/-- Modelled from the spec: the status line rendered by `wsgi.WsgiResponse`
for the one status code the error renderer uses (pulsar.apps.wsgi is not
under src/). -/
def statusLine : Nat → String
  | 504 => "504 Gateway Timeout"
  | n => toString n

/-- Modelled from the spec: the wsgi response object built by the error
renderer — a status code, a body payload (its single content chunk) and an
optional content type (pulsar.apps.wsgi is not under src/). -/
structure WsgiResponse where
  status : Nat
  content : String
  contentType : Option String := none
  deriving DecidableEq, Repr

/-- Modelled from the spec: `resp.get_headers()` exposes the content type the
response was built with (pulsar.apps.wsgi is not under src/). -/
def WsgiResponse.get_headers (r : WsgiResponse) : List Header :=
  match r.contentType with
  | some ct => [("Content-Type", ct)]
  | none => []

/-- Modelled from the spec: `request.content_types.best_match` matches the
Accept header of the request against `text/html` first, then `text/plain`
(pulsar.apps.wsgi is not under src/).  `acc` abstracts which media types the
Accept header admits. -/
def best_match (acc : String → Bool) : Option String :=
  if acc "text/html" then some "text/html"
  else if acc "text/plain" then some "text/plain"
  else none

/-- Modelled from the spec: `wsgi.HtmlDocument(title=msg)` with one element
appended to its body renders "a minimal HTML document" around that body
content (pulsar.apps.wsgi is not under src/). -/
def htmlDocumentRender (title body : String) : String :=
  "<!DOCTYPE html><html><head><title>" ++ title ++ "</title></head><body>" ++
    body ++ "</body></html>"

/-- The wsgi response the error renderer builds, by branch of the negotiated
content type. -/
def errResponse (e : Environ) (acc : String → Bool) : WsgiResponse :=
  let msg := "Could not find " ++ e.rawUri
  match best_match acc with
  | some "text/html" =>
      { status := 504,
        content := htmlDocumentRender msg ("<h1>" ++ msg ++ "</h1>"),
        contentType := some "text/html" }
  | some "text/plain" =>
      { status := 504, content := msg, contentType := some "text/html" }
  | _ => { status := 504, content := "" }

/-- `ProxyResponse.error(failure)`: when the response has not started, render
the negotiated 504 payload, call `start_response`, set `_done` and enqueue the
single content chunk; otherwise do nothing (the failure stays unhandled). -/
def ProxyResponse.error (e : Environ) (acc : String → Bool) (s : RState) :
    RState × List Act :=
  if s.started then (s, [])
  else
    let resp := errResponse e acc
    ({ s with done := true, queue := s.queue ++ [strBytes resp.content] },
     [Act.startResponse (statusLine resp.status) resp.get_headers,
      Act.enqueue (strBytes resp.content)])

/-- Modelled from the spec: when the error callback declines the failure
because the response already started, the failure is fatal and the framework
aborts the downstream connection (the wsgi machinery delivering the errback is
not under src/). -/
def error_outcome (e : Environ) (acc : String → Bool) (s : RState) :
    List Act :=
  if s.started then [Act.abortDownstream]
  else (ProxyResponse.error e acc s).2

/-- `ProxyTunnel.pre_request(response)`: suppress the upstream HTTP request,
upgrade both connections to the byte tunnel, notify the client, start the
`200 Connection established` response, mark done and enqueue the empty chunk
that forces the header flush. -/
def ProxyTunnel.pre_request (s : RState) : RState × List Act :=
  ({ s with started := true, done := true, queue := s.queue ++ [[]] },
   [Act.setRequestNil, Act.upgradeDownstream, Act.upgradeUpstream,
    Act.finished,
    Act.startResponse "200 Connection established" [],
    Act.enqueue []])

/-- Which response object `_call` builds for the request. -/
inductive ProxyMode where
  | tunnel
  | forward
  deriving DecidableEq, Repr

/-- The outcome of a successful `_call`: the actions performed (body read and
upstream dispatch, in order), the chosen response mode, the body handed to the
upstream client and the outbound headers. -/
structure CallResult where
  actions : List Act
  mode : ProxyMode
  data : Option Bytes
  headers : List Header
  deriving DecidableEq, Repr

/-- `ProxyServerWsgiHandler._call(environ, start_response, loop)`: reject 404
when the raw target is empty or origin-form, otherwise read the inbound body
up front unless `Expect: 100-continue`, build the outbound headers, choose the
response object by method and dispatch the upstream request. -/
def call (mws : List Middleware) (e : Environ) : Except Nat CallResult :=
  if e.rawUri = "" ∨ startsWithSlash e.rawUri then Except.error 404
  else if e.httpExpect ≠ some "100-continue" then
    Except.ok
      { actions := [Act.readBody (readInput e),
                    Act.dispatch e.requestMethod e.rawUri
                      (some (readInput e)) (request_headers mws e)
                      e.serverProtocol],
        mode := if e.requestMethod = "CONNECT" then ProxyMode.tunnel
                else ProxyMode.forward,
        data := some (readInput e),
        headers := request_headers mws e }
  else
    Except.ok
      { actions := [Act.dispatch e.requestMethod e.rawUri none
                      (request_headers mws e) e.serverProtocol],
        mode := if e.requestMethod = "CONNECT" then ProxyMode.tunnel
                else ProxyMode.forward,
        data := none,
        headers := request_headers mws e }

/-- Outcome of the write attempted inside `StreamTunnel.data_received`. -/
inductive WriteOutcome where
  | ok
  | failed
  deriving DecidableEq, Repr

/-- `StreamTunnel.data_received(data)`: write the bytes verbatim to the
transport of the other side; on a write failure re-raise unless the other side
is already closed.  `Except.ok` carries the bytes actually written; `.error`
is the re-raised exception. -/
def StreamTunnel.data_received (tunnelClosed : Bool) (wr : WriteOutcome)
    (data : Bytes) : Except Unit (List Bytes) :=
  match wr with
  | WriteOutcome.ok => Except.ok [data]
  | WriteOutcome.failed =>
      if tunnelClosed then Except.ok [] else Except.error ()

/-- What `_close_tunnel` may hand to the event loop. -/
inductive LoopAction where
  | callSoonClose
  deriving DecidableEq, Repr

/-- `StreamTunnel._close_tunnel(arg)`: when the other side is not yet closed,
schedule its closure on the event loop with `call_soon`.  The first component
is the closed flag of the other side as left by the synchronous call. -/
def StreamTunnel.close_tunnel (tunnelClosed : Bool) : Bool × List LoopAction :=
  (tunnelClosed, if tunnelClosed then [] else [LoopAction.callSoonClose])

/-- `tunnel.close`, the callback the loop runs later: the side becomes
closed. -/
def tunnelClose (_c : Bool) : Bool := true

/-- One request-lifecycle event delivered to the response object. -/
inductive Event where
  | preRequest
  | dataProcessed (ev : UpstreamEvent)
  | error (acc : String → Bool)
  | tunnelPreRequest

/-- Dispatch one event to the handler the source binds for it. -/
def step (e : Environ) (s : RState) : Event → RState × List Act
  | Event.preRequest => (ProxyResponse.pre_request s, [])
  | Event.dataProcessed ev => data_processed e s ev
  | Event.error acc => ProxyResponse.error e acc s
  | Event.tunnelPreRequest => ProxyTunnel.pre_request s

/-- Run a sequence of events, collecting all performed actions in order. -/
def run (e : Environ) : RState → List Event → RState × List Act
  | s, [] => (s, [])
  | s, ev :: evs =>
      ((run e (step e s ev).1 evs).1,
       (step e s ev).2 ++ (run e (step e s ev).1 evs).2)

/-- The per-step view of a run: the state before each event paired with the
actions that event performed. -/
def stepsOf (e : Environ) : RState → List Event → List (RState × List Act)
  | _, [] => []
  | s, ev :: evs => (s, (step e s ev).2) :: stepsOf e (step e s ev).1 evs

/-- Modelled from the spec: after `pre_request` bound it, the upstream client
fires `data_processed` only while its parser advances, so no data event
follows one whose message was complete; the error callback fires at most
once, last (the client machinery delivering these callbacks is not under
src/). -/
def dpPhase : List Event → Prop
  | [] => True
  | Event.error _ :: rest => rest = []
  | Event.dataProcessed ev :: rest =>
      (ev.messageComplete = true → rest = [] ∨ ∃ a, rest = [Event.error a]) ∧
        dpPhase rest
  | Event.preRequest :: _ => False
  | Event.tunnelPreRequest :: _ => False

/-- Modelled from the spec: the event sequences one request can deliver — a
forward request runs `pre_request` and then streams data events; a CONNECT
request runs the tunnel `pre_request`; a request that failed before connecting
fires only the error callback (the client machinery is not under src/). -/
def ValidRun : List Event → Prop
  | [] => True
  | Event.preRequest :: rest => dpPhase rest
  | Event.tunnelPreRequest :: rest => rest = [] ∨ ∃ a, rest = [Event.error a]
  | Event.error _ :: rest => rest = []
  | Event.dataProcessed _ :: _ => False

/-- Is this action a `start_response` call? -/
def isSR : Act → Bool
  | Act.startResponse _ _ => true
  | _ => false

/-- Is this action an enqueue into the chunk queue? -/
def isEnq : Act → Bool
  | Act.enqueue _ => true
  | _ => false

/-- Is this action a read of the inbound body stream? -/
def isReadBody : Act → Bool
  | Act.readBody _ => true
  | _ => false

/-- Is this action a write to the upstream transport? -/
def isTransportWrite : Act → Bool
  | Act.transportWrite _ => true
  | _ => false

/-- Number of `start_response` calls in a trace. -/
def countSR (tr : List Act) : Nat := tr.countP isSR

/-- Does the trace contain a `start_response` call? -/
def hasSR (tr : List Act) : Bool := tr.any isSR

/-- `okTrace seen tr`: walking `tr`, every enqueue is preceded by a
`start_response` (`seen` records whether one was already emitted). -/
def okTrace : Bool → List Act → Bool
  | _, [] => true
  | _, Act.startResponse _ _ :: tr => okTrace true tr
  | seen, Act.enqueue _ :: tr => seen && okTrace seen tr
  | seen, _ :: tr => okTrace seen tr

theorem dp_eq_noHC (e : Environ) (s : RState) (ev : UpstreamEvent)
    (h : ev.headersComplete = false) :
    data_processed e s ev = (s, acts100 e ev) := by
  simp [data_processed, h]

theorem dp_eq_flush (e : Environ) (s : RState) (ev : UpstreamEvent)
    (h : ev.headersComplete = true) (hh : s.headers = none) :
    data_processed e s ev =
      ({ s with headers := some (remove_hop_headers ev.respHeaders),
                done := s.done || ev.messageComplete,
                queue := s.queue ++ [ev.body] },
       acts100 e ev ++
         [Act.startResponse ev.status (remove_hop_headers ev.respHeaders),
          Act.enqueue ev.body]) := by
  simp [data_processed, h, hh]

theorem dp_eq_body (e : Environ) (s : RState) (ev : UpstreamEvent)
    (hs0 : List Header) (h : ev.headersComplete = true)
    (hh : s.headers = some hs0) :
    data_processed e s ev =
      ({ s with done := s.done || ev.messageComplete,
                queue := s.queue ++ [ev.body] },
       acts100 e ev ++ [Act.enqueue ev.body]) := by
  simp [data_processed, h, hh]

theorem dp_started (e : Environ) (s : RState) (ev : UpstreamEvent) :
    (data_processed e s ev).1.started = s.started := by
  cases hc : ev.headersComplete
  · rw [dp_eq_noHC e s ev hc]
  · cases hh : s.headers
    · rw [dp_eq_flush e s ev hc hh]
    · rw [dp_eq_body e s ev _ hc hh]

theorem dp_done_of_not_mc (e : Environ) (s : RState) (ev : UpstreamEvent)
    (h : ev.messageComplete = false) :
    (data_processed e s ev).1.done = s.done := by
  cases hc : ev.headersComplete
  · rw [dp_eq_noHC e s ev hc]
  · cases hh : s.headers
    · rw [dp_eq_flush e s ev hc hh]; simp [h]
    · rw [dp_eq_body e s ev _ hc hh]; simp [h]

theorem dp_headers_mono (e : Environ) (s : RState) (ev : UpstreamEvent)
    (h : s.headers.isSome = true) :
    (data_processed e s ev).1.headers.isSome = true := by
  cases hc : ev.headersComplete
  · rw [dp_eq_noHC e s ev hc]; exact h
  · cases hh : s.headers
    · rw [dp_eq_flush e s ev hc hh]; rfl
    · rw [dp_eq_body e s ev _ hc hh]; simp [hh]

theorem error_of_started (e : Environ) (acc : String → Bool) (s : RState)
    (h : s.started = true) : ProxyResponse.error e acc s = (s, []) := by
  simp [ProxyResponse.error, h]

theorem error_of_not_started (e : Environ) (acc : String → Bool) (s : RState)
    (h : s.started = false) :
    ProxyResponse.error e acc s =
      ({ s with done := true,
                queue := s.queue ++ [strBytes (errResponse e acc).content] },
       [Act.startResponse (statusLine (errResponse e acc).status)
          (errResponse e acc).get_headers,
        Act.enqueue (strBytes (errResponse e acc).content)]) := by
  simp [ProxyResponse.error, h]

theorem errResponse_status (e : Environ) (acc : String → Bool) :
    (errResponse e acc).status = 504 := by
  unfold errResponse best_match
  by_cases h1 : acc "text/html" <;> by_cases h2 : acc "text/plain" <;>
    simp [h1, h2]

theorem acts100_no_sr (e : Environ) (ev : UpstreamEvent) :
    hasSR (acts100 e ev) = false := by
  unfold acts100; split <;> simp [hasSR, isSR]

theorem acts100_ok (e : Environ) (ev : UpstreamEvent) (b : Bool) :
    okTrace b (acts100 e ev) = true := by
  unfold acts100; split <;> simp [okTrace]

theorem acts100_count (e : Environ) (ev : UpstreamEvent) :
    countSR (acts100 e ev) = 0 := by
  unfold acts100; split <;> simp [countSR, isSR]

theorem acts100_no_enq (e : Environ) (ev : UpstreamEvent) :
    ∀ a ∈ acts100 e ev, isEnq a = false := by
  unfold acts100; split <;> simp [isEnq]

theorem sr_not_mem_acts100 (e : Environ) (ev : UpstreamEvent) (st : String)
    (hs : List Header) : Act.startResponse st hs ∉ acts100 e ev := by
  unfold acts100; split <;> simp

theorem okTrace_append (t1 t2 : List Act) :
    ∀ b, okTrace b (t1 ++ t2) = (okTrace b t1 && okTrace (b || hasSR t1) t2) := by
  induction t1 with
  | nil => intro b; simp [okTrace, hasSR]
  | cons a t ih =>
      intro b
      cases a <;>
        simp [okTrace, hasSR, isSR, ih, Bool.and_assoc, Bool.or_assoc]

theorem countSR_append (t1 t2 : List Act) :
    countSR (t1 ++ t2) = countSR t1 + countSR t2 := by
  simp [countSR, List.countP_append]

theorem run_inv (e : Environ) :
    ∀ (rest : List Event) (s : RState), dpPhase rest → s.started = true →
    okTrace s.headers.isSome (run e s rest).2 = true ∧
    countSR (run e s rest).2 =
      (if s.headers.isSome then 0
       else if (run e s rest).1.headers.isSome then 1 else 0) ∧
    ((run e s rest).1.done = true →
      s.done = true ∨ (run e s rest).1.headers.isSome = true) ∧
    (run e s rest).1.started = true ∧
    (s.headers.isSome = true → (run e s rest).1.headers.isSome = true) := by
  intro rest
  induction rest with
  | nil =>
      intro s _ hst
      refine ⟨rfl, ?_, fun h => Or.inl h, hst, fun h => h⟩
      cases hb : s.headers.isSome <;> simp [run, countSR, hb]
  | cons ev rest ih =>
      intro s hph hst
      cases ev with
      | preRequest => exact absurd hph (by simp [dpPhase])
      | tunnelPreRequest => exact absurd hph (by simp [dpPhase])
      | error a =>
          have hrest : rest = [] := hph
          subst hrest
          simp only [run, step, error_of_started e a s hst]
          refine ⟨rfl, ?_, fun h => Or.inl h, hst, fun h => h⟩
          cases hb : s.headers.isSome <;> simp [countSR, hb]
      | dataProcessed ev =>
          obtain ⟨hmc, hph'⟩ := hph
          have hst1 : (data_processed e s ev).1.started = true := by
            rw [dp_started]; exact hst
          obtain ⟨iok, icnt, idone, istarted, imono⟩ :=
            ih (data_processed e s ev).1 hph' hst1
          cases hc : ev.headersComplete with
          | false =>
              have hdp := dp_eq_noHC e s ev hc
              rw [hdp] at iok icnt idone istarted imono
              simp only [run, step, hdp]
              refine ⟨?_, ?_, idone, istarted, imono⟩
              · simp [okTrace_append, acts100_ok, acts100_no_sr, iok]
              · simp [countSR_append, acts100_count, icnt]
          | true =>
              cases hh : s.headers with
              | none =>
                  have hdp := dp_eq_flush e s ev hc hh
                  rw [hdp] at iok icnt idone istarted imono
                  dsimp only at iok icnt idone istarted imono
                  rw [Option.isSome_some] at iok icnt imono
                  have hfin := imono rfl
                  simp only [run, step, hdp]
                  refine ⟨?_, ?_, fun _ => Or.inr hfin, istarted, fun _ => hfin⟩
                  · simp only [okTrace_append, acts100_ok, acts100_no_sr,
                      Bool.true_and, Bool.or_false]
                    simp [okTrace, hasSR, isSR, hh, iok]
                  · rw [countSR_append, countSR_append, acts100_count, icnt]
                    simp [countSR, List.countP_cons, isSR, hh, hfin]
              | some hs0 =>
                  have hdp := dp_eq_body e s ev hs0 hc hh
                  rw [hdp] at iok icnt idone istarted imono
                  dsimp only at iok icnt idone istarted imono
                  have hb : s.headers.isSome = true := by simp [hh]
                  rw [hb] at iok icnt imono
                  have hfin := imono rfl
                  simp only [run, step, hdp]
                  refine ⟨?_, ?_, fun _ => Or.inr hfin, istarted, fun _ => hfin⟩
                  · simp only [okTrace_append, acts100_ok, acts100_no_sr,
                      Bool.true_and, Bool.or_false, hb]
                    simp [okTrace, hasSR, isSR, iok]
                  · rw [countSR_append, countSR_append, acts100_count, icnt]
                    simp [countSR, List.countP_cons, isSR, hb, hfin]

theorem dp_steps_no_enq (e : Environ) :
    ∀ (rest : List Event) (s : RState), dpPhase rest → s.started = true →
      s.done = false →
      ∀ p ∈ stepsOf e s rest, p.1.done = true → ∀ a ∈ p.2, isEnq a = false := by
  intro rest
  induction rest with
  | nil => intro s _ _ _ p hp; simp [stepsOf] at hp
  | cons ev rest ih =>
      intro s hph hst hdn p hp hpd
      cases ev with
      | preRequest => exact absurd hph (by simp [dpPhase])
      | tunnelPreRequest => exact absurd hph (by simp [dpPhase])
      | error a =>
          have hre : rest = [] := hph
          subst hre
          simp only [stepsOf, List.mem_cons] at hp
          rcases hp with rfl | hp
          · exact absurd hpd (by simp [hdn])
          · simp [stepsOf] at hp
      | dataProcessed ev =>
          obtain ⟨hmc, hph'⟩ := hph
          simp only [stepsOf, List.mem_cons, step] at hp
          rcases hp with rfl | hp
          · exact absurd hpd (by simp [hdn])
          · by_cases hm : ev.messageComplete = true
            · rcases hmc hm with rfl | ⟨a, rfl⟩
              · simp [stepsOf] at hp
              · simp only [stepsOf, step, List.mem_cons] at hp
                have hst1 : (data_processed e s ev).1.started = true := by
                  rw [dp_started]; exact hst
                rcases hp with rfl | hp
                · intro x hx
                  rw [error_of_started e a _ hst1] at hx
                  simp at hx
                · simp [stepsOf] at hp
            · have hm' : ev.messageComplete = false := by
                simpa using hm
              exact ih (data_processed e s ev).1 hph'
                (by rw [dp_started]; exact hst)
                (by rw [dp_done_of_not_mc e s ev hm']; exact hdn) p hp hpd

/-- A sample environ used to evaluate the theorems on concrete input. -/
def sampleEnv : Environ :=
  { rawUri := "http://example.test/path",
    requestMethod := "GET",
    serverProtocol := "HTTP/1.1",
    remoteAddr := "127.0.0.1",
    wsgiInput := some [104, 105],
    httpHeaders := [("HOST", "example.test"), ("ACCEPT", "text/html")],
    contentType := some "text/plain",
    contentLength := some "2" }

/-- A sample final upstream event: complete 200 response carrying one
hop-by-hop header. -/
def sampleOk : UpstreamEvent :=
  { status := "200 OK",
    headersComplete := true,
    messageComplete := true,
    respHeaders := [("Connection", "keep-alive"), ("Content-Length", "5")],
    body := [104, 101, 108, 108, 111] }

/-- C1: for every CONNECT request, the tunnel pre-request handler suppresses
emission of the upstream HTTP request (nulling the request field of the
response), upgrades the downstream and the upstream connection to the tunnel
byte-relay handler, notifies the client via `finished()`, calls
`start_response` with status `200 Connection established` and an empty header
list, enqueues a zero-length body chunk to force the header flush, and marks
the response done. -/
theorem claim_C1_tunnel_pre_request (s : RState) :
    (ProxyTunnel.pre_request s).2 =
      [Act.setRequestNil, Act.upgradeDownstream, Act.upgradeUpstream,
       Act.finished, Act.startResponse "200 Connection established" [],
       Act.enqueue []] ∧
    (ProxyTunnel.pre_request s).1.started = true ∧
    (ProxyTunnel.pre_request s).1.done = true ∧
    (ProxyTunnel.pre_request s).1.queue = s.queue ++ [[]] :=
  ⟨rfl, rfl, rfl, rfl⟩

/-- Witness for C1: the tunnel pre-request handler evaluated at the initial
response state. -/
theorem claim_C1_witness :
    (ProxyTunnel.pre_request initState).2 =
      [Act.setRequestNil, Act.upgradeDownstream, Act.upgradeUpstream,
       Act.finished, Act.startResponse "200 Connection established" [],
       Act.enqueue []] ∧
    (ProxyTunnel.pre_request initState).1.started = true ∧
    (ProxyTunnel.pre_request initState).1.done = true ∧
    (ProxyTunnel.pre_request initState).1.queue = initState.queue ++ [[]] :=
  claim_C1_tunnel_pre_request initState

/-- C2: every `start_response` the forward pipeline performs carries the
hop-filtered header list, so no header whose lower-cased name is in the
hop-by-hop set reaches the downstream client; and the filter keeps every
non-hop header of the upstream response. -/
theorem claim_C2_hop_filter (e : Environ) (s : RState) (ev : UpstreamEvent)
    (st : String) (hs : List Header)
    (hmem : Act.startResponse st hs ∈ (data_processed e s ev).2) :
    (∀ p ∈ hs, HOP_HEADERS.contains (lowerStr p.1) = false) ∧
    (∀ p ∈ ev.respHeaders, HOP_HEADERS.contains (lowerStr p.1) = false →
      p ∈ remove_hop_headers ev.respHeaders) := by
  constructor
  · cases hc : ev.headersComplete
    · rw [dp_eq_noHC e s ev hc] at hmem
      exact absurd hmem (sr_not_mem_acts100 e ev st hs)
    · cases hh : s.headers with
      | none =>
          rw [dp_eq_flush e s ev hc hh] at hmem
          rcases List.mem_append.1 hmem with h1 | h2
          · exact absurd h1 (sr_not_mem_acts100 e ev st hs)
          · simp only [List.mem_cons, List.not_mem_nil, or_false] at h2
            rcases h2 with heq | heq
            · injection heq with hst1 hhs1
              subst hhs1
              intro p hp
              have hpf := List.mem_filter.1 hp
              simpa using hpf.2
            · exact absurd heq (by simp)
      | some hs0 =>
          rw [dp_eq_body e s ev hs0 hc hh] at hmem
          rcases List.mem_append.1 hmem with h1 | h2
          · exact absurd h1 (sr_not_mem_acts100 e ev st hs)
          · simp at h2
  · intro p hp hcp
    exact List.mem_filter.2 ⟨hp, by simpa using hcp⟩

/-- Witness for C2: a concrete header flush of a response carrying a
Connection hop header; the flushed list is hop-free and keeps the non-hop
header. -/
theorem claim_C2_witness :
    (∀ p ∈ [(("Content-Length" : String), ("5" : String))],
      HOP_HEADERS.contains (lowerStr p.1) = false) ∧
    (∀ p ∈ sampleOk.respHeaders, HOP_HEADERS.contains (lowerStr p.1) = false →
      p ∈ remove_hop_headers sampleOk.respHeaders) :=
  claim_C2_hop_filter sampleEnv initState sampleOk "200 OK"
    [("Content-Length", "5")] (by decide)

/-- C3: `_call` fails a request with HTTP 404 exactly when the raw target is
empty or begins with a slash; the rejected branch performs no body read, no
header construction and no upstream dispatch (it carries no actions); any
other target passes this check and the call proceeds. -/
theorem claim_C3_bad_target (mws : List Middleware) (e : Environ) :
    (call mws e = Except.error 404 ↔
      (e.rawUri = "" ∨ startsWithSlash e.rawUri = true)) ∧
    (¬(e.rawUri = "" ∨ startsWithSlash e.rawUri = true) →
      ∃ r, call mws e = Except.ok r) := by
  by_cases hg : e.rawUri = "" ∨ startsWithSlash e.rawUri = true
  · constructor
    · simp [call, hg]
    · intro hng; exact absurd hg hng
  · constructor
    · unfold call
      rw [if_neg hg]
      constructor
      · intro hcontra
        by_cases hx : e.httpExpect ≠ some "100-continue" <;>
          simp [hx] at hcontra
      · intro h; exact absurd h hg
    · intro _
      unfold call
      rw [if_neg hg]
      by_cases hx : e.httpExpect ≠ some "100-continue"
      · rw [if_pos hx]; exact ⟨_, rfl⟩
      · rw [if_neg hx]; exact ⟨_, rfl⟩

/-- Witness for C3: an origin-form target is rejected with 404. -/
theorem claim_C3_witness :
    call [] { sampleEnv with rawUri := "/foo" } = Except.error 404 :=
  (claim_C3_bad_target [] { sampleEnv with rawUri := "/foo" }).1.2 (by decide)

/-- C4: the inbound body is read before dispatch and passed to the upstream
client iff the Expect header does not equal `100-continue`; with
`Expect: 100-continue` the request is dispatched with a nil body, and exactly
upon observing upstream status `100 Continue` the full inbound body is read
and written via the response transport. -/
theorem claim_C4_expect_continue (mws : List Middleware) (e : Environ)
    (s : RState) (ev : UpstreamEvent)
    (h1 : e.rawUri ≠ "") (h2 : startsWithSlash e.rawUri = false) :
    (e.httpExpect ≠ some "100-continue" →
      ∃ r, call mws e = Except.ok r ∧ r.data = some (readInput e) ∧
        r.actions = [Act.readBody (readInput e),
          Act.dispatch e.requestMethod e.rawUri (some (readInput e))
            (request_headers mws e) e.serverProtocol]) ∧
    (e.httpExpect = some "100-continue" →
      ∃ r, call mws e = Except.ok r ∧ r.data = none ∧
        r.actions = [Act.dispatch e.requestMethod e.rawUri none
          (request_headers mws e) e.serverProtocol]) ∧
    (ev.status = "100 Continue" →
      ∃ rest, (data_processed e s ev).2 =
        Act.readBody (readInput e) :: Act.transportWrite (readInput e) :: rest) ∧
    (ev.status ≠ "100 Continue" →
      ∀ a ∈ (data_processed e s ev).2,
        isReadBody a = false ∧ isTransportWrite a = false) := by
  have hg : ¬(e.rawUri = "" ∨ startsWithSlash e.rawUri = true) := by
    simp [h1, h2]
  refine ⟨?_, ?_, ?_, ?_⟩
  · intro hx
    unfold call; rw [if_neg hg, if_pos hx]; exact ⟨_, rfl, rfl, rfl⟩
  · intro hx
    have hx' : ¬(e.httpExpect ≠ some "100-continue") := by simp [hx]
    unfold call; rw [if_neg hg, if_neg hx']; exact ⟨_, rfl, rfl, rfl⟩
  · intro h100
    have hpre : acts100 e ev =
        [Act.readBody (readInput e), Act.transportWrite (readInput e)] := by
      simp [acts100, h100]
    cases hc : ev.headersComplete
    · rw [dp_eq_noHC e s ev hc, hpre]; exact ⟨[], rfl⟩
    · cases hh : s.headers with
      | none => rw [dp_eq_flush e s ev hc hh, hpre]; exact ⟨_, rfl⟩
      | some hs0 => rw [dp_eq_body e s ev hs0 hc hh, hpre]; exact ⟨_, rfl⟩
  · intro h100
    have hpre : acts100 e ev = [] := by simp [acts100, h100]
    cases hc : ev.headersComplete
    · rw [dp_eq_noHC e s ev hc, hpre]; simp
    · cases hh : s.headers with
      | none =>
          rw [dp_eq_flush e s ev hc hh, hpre]
          intro a ha
          simp only [List.nil_append, List.mem_cons, List.not_mem_nil,
            or_false] at ha
          rcases ha with rfl | rfl
          · exact ⟨rfl, rfl⟩
          · exact ⟨rfl, rfl⟩
      | some hs0 =>
          rw [dp_eq_body e s ev hs0 hc hh, hpre]
          intro a ha
          simp only [List.nil_append, List.mem_cons, List.not_mem_nil,
            or_false] at ha
          subst ha
          exact ⟨rfl, rfl⟩

/-- Witness for C4: a request without Expect reads the body up front and
passes it to the dispatch. -/
theorem claim_C4_witness :
    ∃ r, call [] sampleEnv = Except.ok r ∧
      r.data = some (readInput sampleEnv) ∧
      r.actions = [Act.readBody (readInput sampleEnv),
        Act.dispatch sampleEnv.requestMethod sampleEnv.rawUri
          (some (readInput sampleEnv)) (request_headers [] sampleEnv)
          sampleEnv.serverProtocol] :=
  (claim_C4_expect_continue [] sampleEnv initState sampleOk (by decide)
    (by decide)).1 (by decide)

theorem strBytes_append (a b : String) :
    strBytes (a ++ b) = strBytes a ++ strBytes b := by
  simp [strBytes, String.data_append]

theorem errResponse_html (e : Environ) (acc : String → Bool)
    (h : acc "text/html" = true) :
    errResponse e acc =
      { status := 504,
        content := htmlDocumentRender ("Could not find " ++ e.rawUri)
          ("<h1>" ++ ("Could not find " ++ e.rawUri) ++ "</h1>"),
        contentType := some "text/html" } := by
  simp [errResponse, best_match, h]

theorem errResponse_plain (e : Environ) (acc : String → Bool)
    (h1 : acc "text/html" = false) (h2 : acc "text/plain" = true) :
    errResponse e acc =
      { status := 504, content := "Could not find " ++ e.rawUri,
        contentType := some "text/html" } := by
  simp [errResponse, best_match, h1, h2]

theorem errResponse_other (e : Environ) (acc : String → Bool)
    (h1 : acc "text/html" = false) (h2 : acc "text/plain" = false) :
    errResponse e acc =
      { status := 504, content := "", contentType := none } := by
  simp [errResponse, best_match, h1, h2]

/-- C5: the upstream error callback produces a user-visible response only when
no downstream response has started, and then renders a 504 negotiated against
text/html then text/plain: for text/html an HTML document whose body contains
the heading `Could not find uri`, sent with Content-Type text/html; for
text/plain the same message as body but sent with Content-Type text/html;
otherwise an empty body; the payload is enqueued as a single chunk and done is
set.  When the response has already started the callback performs nothing
user-visible and the modelled framework treats the failure as fatal, aborting
the downstream connection. -/
theorem claim_C5_error_renderer (e : Environ) (acc : String → Bool)
    (s : RState) :
    (s.started = true → (ProxyResponse.error e acc s).2 = [] ∧
      error_outcome e acc s = [Act.abortDownstream]) ∧
    (s.started = false →
      ∃ body hdrs,
        (ProxyResponse.error e acc s).2 =
          [Act.startResponse (statusLine 504) hdrs, Act.enqueue body] ∧
        (ProxyResponse.error e acc s).1.done = true ∧
        (ProxyResponse.error e acc s).1.queue = s.queue ++ [body] ∧
        (acc "text/html" = true →
          hdrs = [("Content-Type", "text/html")] ∧
          ∃ pre post, body =
            pre ++ strBytes ("<h1>Could not find " ++ e.rawUri ++ "</h1>") ++
              post) ∧
        (acc "text/html" = false → acc "text/plain" = true →
          hdrs = [("Content-Type", "text/html")] ∧
          body = strBytes ("Could not find " ++ e.rawUri)) ∧
        (acc "text/html" = false → acc "text/plain" = false →
          hdrs = [] ∧ body = [])) := by
  constructor
  · intro hst
    exact ⟨by rw [error_of_started e acc s hst], by simp [error_outcome, hst]⟩
  · intro hns
    refine ⟨strBytes (errResponse e acc).content,
      (errResponse e acc).get_headers, ?_, ?_, ?_, ?_, ?_, ?_⟩
    · rw [error_of_not_started e acc s hns, errResponse_status]
    · rw [error_of_not_started e acc s hns]
    · rw [error_of_not_started e acc s hns]
    · intro hhtml
      rw [errResponse_html e acc hhtml]
      refine ⟨rfl,
        strBytes ("<!DOCTYPE html><html><head><title>" ++
          ("Could not find " ++ e.rawUri) ++ "</title></head><body>"),
        strBytes "</body></html>", ?_⟩
      simp [htmlDocumentRender, strBytes, String.data_append, List.map_append,
        List.append_assoc]
    · intro h1 h2
      rw [errResponse_plain e acc h1 h2]
      exact ⟨rfl, rfl⟩
    · intro h1 h2
      rw [errResponse_other e acc h1 h2]
      exact ⟨rfl, rfl⟩

/-- Witness for C5: a text/plain-only Accept at a concrete request renders the
504 message body with the (buggy) text/html content type, enqueued as a
single chunk with done set. -/
theorem claim_C5_witness :
    ∃ body hdrs,
      (ProxyResponse.error sampleEnv (fun m => m == "text/plain")
          initState).2 =
        [Act.startResponse (statusLine 504) hdrs, Act.enqueue body] ∧
      (ProxyResponse.error sampleEnv (fun m => m == "text/plain")
          initState).1.done = true ∧
      (ProxyResponse.error sampleEnv (fun m => m == "text/plain")
          initState).1.queue = initState.queue ++ [body] ∧
      ((fun m => m == "text/plain") "text/html" = true →
        hdrs = [("Content-Type", "text/html")] ∧
        ∃ pre post, body =
          pre ++ strBytes ("<h1>Could not find " ++ sampleEnv.rawUri ++
            "</h1>") ++ post) ∧
      ((fun m => m == "text/plain") "text/html" = false →
        (fun m => m == "text/plain") "text/plain" = true →
        hdrs = [("Content-Type", "text/html")] ∧
        body = strBytes ("Could not find " ++ sampleEnv.rawUri)) ∧
      ((fun m => m == "text/plain") "text/html" = false →
        (fun m => m == "text/plain") "text/plain" = false →
        hdrs = [] ∧ body = []) :=
  (claim_C5_error_renderer sampleEnv (fun m => m == "text/plain")
    initState).2 rfl

/-- C7: on each side of an established tunnel, `data_received` writes the
bytes verbatim to the transport of the other side; a write failure is
suppressed exactly when the other side is already closed and re-raises
otherwise; `_close_tunnel` leaves the other side untouched synchronously and
schedules its closure on the event loop (via `call_soon`) exactly when it is
not yet closed; the scheduled callback closes it. -/
theorem claim_C7_stream_tunnel (closed : Bool) (data : Bytes) :
    StreamTunnel.data_received closed WriteOutcome.ok data = Except.ok [data] ∧
    (StreamTunnel.data_received closed WriteOutcome.failed data =
        Except.ok [] ↔ closed = true) ∧
    (StreamTunnel.data_received closed WriteOutcome.failed data =
        Except.error () ↔ closed = false) ∧
    (StreamTunnel.close_tunnel closed).1 = closed ∧
    ((StreamTunnel.close_tunnel closed).2 = [LoopAction.callSoonClose] ↔
      closed = false) ∧
    ((StreamTunnel.close_tunnel closed).2 = [] ↔ closed = true) ∧
    tunnelClose (StreamTunnel.close_tunnel closed).1 = true := by
  cases closed <;>
    simp [StreamTunnel.data_received, StreamTunnel.close_tunnel, tunnelClose]

/-- Witness for C7: the tunnel relay evaluated with the other side open. -/
theorem claim_C7_witness :
    StreamTunnel.data_received false WriteOutcome.ok [7, 8] =
      Except.ok [[7, 8]] ∧
    (StreamTunnel.data_received false WriteOutcome.failed [7, 8] =
        Except.ok [] ↔ false = true) ∧
    (StreamTunnel.data_received false WriteOutcome.failed [7, 8] =
        Except.error () ↔ false = false) ∧
    (StreamTunnel.close_tunnel false).1 = false ∧
    ((StreamTunnel.close_tunnel false).2 = [LoopAction.callSoonClose] ↔
      false = false) ∧
    ((StreamTunnel.close_tunnel false).2 = [] ↔ false = true) ∧
    tunnelClose (StreamTunnel.close_tunnel false).1 = true :=
  claim_C7_stream_tunnel false [7, 8]

/-- The claim-side description of the copy phase of the outbound header
construction: every inbound header the parser exposed, in order, with environ
keys translated to header names. -/
def inboundCopy (e : Environ) : List Header :=
  e.httpHeaders.map (fun p => (headerName p.1, p.2))

/-- The content-type entry the mirror phase contributes: present iff the
environ carries a truthy CONTENT_TYPE. -/
def mirroredCT (e : Environ) : List Header :=
  match e.contentType with
  | some v => if v = "" then [] else [("content-type", v)]
  | none => []

/-- The content-length entry the mirror phase contributes: present iff the
environ carries a truthy CONTENT_LENGTH. -/
def mirroredCL (e : Environ) : List Header :=
  match e.contentLength with
  | some v => if v = "" then [] else [("content-length", v)]
  | none => []

/-- The claim-side description of the mirror phase: content-type then
content-length, each when present on the inbound request with a truthy
value. -/
def mirrored (e : Environ) : List Header := mirroredCT e ++ mirroredCL e

theorem setHeader_fresh (hs : List Header) (n v : String)
    (h : ∀ p ∈ hs, (lowerStr p.1 == lowerStr n) = false) :
    setHeader hs n v = hs ++ [(n, v)] := by
  have hneg : ¬(hs.any (fun p => lowerStr p.1 == lowerStr n) = true) := by
    intro hcon
    rcases List.any_eq_true.1 hcon with ⟨p, hp, hpe⟩
    rw [h p hp] at hpe
    cases hpe
  simp [setHeader, hneg]

theorem copy_fold (l : List (String × String)) :
    ∀ acc, (l.map (fun p => lowerStr (headerName p.1))).Nodup →
    (∀ q ∈ acc, ∀ p ∈ l, (lowerStr q.1 == lowerStr (headerName p.1)) = false) →
    l.foldl (fun a p => setHeader a (headerName p.1) p.2) acc =
      acc ++ l.map (fun p => (headerName p.1, p.2)) := by
  induction l with
  | nil => intro acc _ _; simp
  | cons hd tl ih =>
      intro acc hnd hfresh
      rw [List.map_cons, List.nodup_cons] at hnd
      obtain ⟨hhd, htl⟩ := hnd
      have hfr2 : ∀ q ∈ acc ++ [(headerName hd.1, hd.2)], ∀ p ∈ tl,
          (lowerStr q.1 == lowerStr (headerName p.1)) = false := by
        intro q hq p hp
        rcases List.mem_append.1 hq with hq1 | hq2
        · exact hfresh q hq1 p (List.mem_cons_of_mem hd hp)
        · have hq' : q = (headerName hd.1, hd.2) := by simpa using hq2
          subst hq'
          have hmem : lowerStr (headerName p.1) ∈
              tl.map (fun r => lowerStr (headerName r.1)) :=
            List.mem_map_of_mem _ hp
          have hne : ¬(lowerStr (headerName hd.1) =
              lowerStr (headerName p.1)) := by
            intro heq
            rw [heq] at hhd
            exact hhd hmem
          simpa using hne
      rw [List.foldl_cons,
        setHeader_fresh acc (headerName hd.1) hd.2
          (fun q hq => hfresh q hq hd (List.mem_cons_self hd tl)),
        ih (acc ++ [(headerName hd.1, hd.2)]) htl hfr2]
      simp

theorem envStep_ct (e : Environ) (acc : List Header)
    (hfr : ∀ p ∈ acc, (lowerStr p.1 == lowerStr "content-type") = false) :
    envStep e acc "content-type" = acc ++ mirroredCT e := by
  unfold envStep mirroredCT
  have h1 : e.envHeaderValue "content-type" = e.contentType := by
    simp [Environ.envHeaderValue]
  rw [h1]
  cases e.contentType with
  | none => simp
  | some v =>
      by_cases hv : v = "" <;>
        simp [hv, setHeader_fresh acc "content-type" v hfr]

theorem envStep_cl (e : Environ) (acc : List Header)
    (hfr : ∀ p ∈ acc, (lowerStr p.1 == lowerStr "content-length") = false) :
    envStep e acc "content-length" = acc ++ mirroredCL e := by
  unfold envStep mirroredCL
  have h1 : e.envHeaderValue "content-length" = e.contentLength := by
    simp [Environ.envHeaderValue]
  rw [h1]
  cases e.contentLength with
  | none => simp
  | some v =>
      by_cases hv : v = "" <;>
        simp [hv, setHeader_fresh acc "content-length" v hfr]

theorem mirror_fold (e : Environ)
    (hct : ∀ p ∈ inboundCopy e, lowerStr p.1 ≠ "content-type" ∧
      lowerStr p.1 ≠ "content-length") :
    ENVIRON_HEADERS.foldl (envStep e) (inboundCopy e) =
      inboundCopy e ++ mirrored e := by
  have hfr1 : ∀ p ∈ inboundCopy e,
      (lowerStr p.1 == lowerStr "content-type") = false := by
    intro p hp
    have := (hct p hp).1
    simpa using this
  have hfr2 : ∀ p ∈ inboundCopy e ++ mirroredCT e,
      (lowerStr p.1 == lowerStr "content-length") = false := by
    intro p hp
    rcases List.mem_append.1 hp with hp1 | hp2
    · have := (hct p hp1).2
      simpa using this
    · unfold mirroredCT at hp2
      cases hcte : e.contentType with
      | none => rw [hcte] at hp2; cases hp2
      | some v =>
          rw [hcte] at hp2
          simp only [] at hp2
          by_cases hv : v = ""
          · rw [if_pos hv] at hp2; cases hp2
          · rw [if_neg hv] at hp2
            have hp2' : p = ("content-type", v) := by simpa using hp2
            subst hp2'
            show (lowerStr "content-type" == lowerStr "content-length") = false
            decide
  simp only [ENVIRON_HEADERS, List.foldl_cons, List.foldl_nil]
  rw [envStep_ct e (inboundCopy e) hfr1,
    envStep_cl e (inboundCopy e ++ mirroredCT e) hfr2]
  simp [mirrored, List.append_assoc]

/-- C6: the outbound header set starts from the empty ordered multi-map,
copies every inbound header the parser exposed preserving order (the environ
dictionary cannot hold duplicate keys, so the translated names are assumed
case-insensitively distinct), mirrors content-type and content-length onto
the outbound set when present with truthy values, and then applies each
configured header middleware in registration order; an empty middleware chain
leaves the copied headers unchanged. -/
theorem claim_C6_request_headers (mws : List Middleware) (e : Environ)
    (hnd : (e.httpHeaders.map (fun p => lowerStr (headerName p.1))).Nodup)
    (hct : ∀ p ∈ e.httpHeaders,
      lowerStr (headerName p.1) ≠ "content-type" ∧
      lowerStr (headerName p.1) ≠ "content-length") :
    request_headers mws e =
      mws.foldl (fun acc mw => mw e acc) (inboundCopy e ++ mirrored e) ∧
    request_headers [] e = inboundCopy e ++ mirrored e := by
  have hbase : e.httpHeaders.foldl
      (fun a p => setHeader a (headerName p.1) p.2) [] = inboundCopy e := by
    have h := copy_fold e.httpHeaders [] hnd (by intro q hq; cases hq)
    simpa [inboundCopy] using h
  have hct' : ∀ p ∈ inboundCopy e, lowerStr p.1 ≠ "content-type" ∧
      lowerStr p.1 ≠ "content-length" := by
    intro p hp
    rcases List.mem_map.1 hp with ⟨q, hq, rfl⟩
    exact hct q hq
  have hm := mirror_fold e hct'
  constructor
  · simp only [request_headers]
    rw [hbase, hm]
  · simp only [request_headers]
    rw [hbase, hm]
    simp

/-- Witness for C6: the outbound headers for a concrete environ with both
mirrored entries present and no middleware. -/
theorem claim_C6_witness :
    request_headers [] sampleEnv = inboundCopy sampleEnv ++ mirrored sampleEnv :=
  (claim_C6_request_headers [] sampleEnv (by decide) (by decide)).2

/-- C8: over every valid event sequence of one request (forward, tunnel, or
error path), `start_response` is invoked at most once, every chunk enqueued
for the downstream writer is preceded in the trace by the `start_response`
invocation, and once the response is done it was invoked exactly once. -/
theorem claim_C8_start_response_once (e : Environ) (evs : List Event)
    (hv : ValidRun evs) :
    okTrace false (run e initState evs).2 = true ∧
    countSR (run e initState evs).2 ≤ 1 ∧
    ((run e initState evs).1.done = true →
      countSR (run e initState evs).2 = 1) := by
  cases evs with
  | nil =>
      exact ⟨rfl, by simp [run, countSR], by intro h; cases h⟩
  | cons ev rest =>
      cases ev with
      | dataProcessed ev => exact absurd hv (by simp [ValidRun])
      | preRequest =>
          have hph : dpPhase rest := hv
          obtain ⟨iok, icnt, idone, _, _⟩ :=
            run_inv e rest (ProxyResponse.pre_request initState) hph rfl
          have hpn : (ProxyResponse.pre_request initState).headers = none := rfl
          rw [hpn, Option.isSome_none] at iok icnt
          simp only [Bool.false_eq_true, if_false] at icnt
          simp only [run, step, List.nil_append]
          refine ⟨iok, ?_, ?_⟩
          · rw [icnt]
            cases (run e (ProxyResponse.pre_request initState) rest).1.headers.isSome <;>
              simp
          · intro hdone
            rcases idone hdone with h1 | h2
            · cases h1
            · rw [icnt, h2]
              simp
      | tunnelPreRequest =>
          rcases hv with rfl | ⟨a, rfl⟩
          · refine ⟨rfl, ?_, ?_⟩ <;>
              simp [run, step, ProxyTunnel.pre_request, countSR,
                List.countP_cons, isSR]
          · have hso := error_of_started e a (ProxyTunnel.pre_request initState).1 rfl
            simp only [run, step, hso]
            refine ⟨?_, ?_, ?_⟩ <;>
              simp [ProxyTunnel.pre_request, countSR, List.countP_cons,
                isSR, okTrace]
      | error a =>
          have hre : rest = [] := hv
          subst hre
          have hne := error_of_not_started e a initState rfl
          refine ⟨?_, ?_, ?_⟩ <;>
            simp [run, step, hne, countSR, List.countP_cons, isSR, okTrace]

/-- Witness for C8: a forward run that flushes headers and completes in one
data event satisfies the once-and-before-enqueue property. -/
theorem claim_C8_witness :
    okTrace false (run sampleEnv initState
      [Event.preRequest, Event.dataProcessed sampleOk]).2 = true ∧
    countSR (run sampleEnv initState
      [Event.preRequest, Event.dataProcessed sampleOk]).2 ≤ 1 ∧
    ((run sampleEnv initState
        [Event.preRequest, Event.dataProcessed sampleOk]).1.done = true →
      countSR (run sampleEnv initState
        [Event.preRequest, Event.dataProcessed sampleOk]).2 = 1) :=
  claim_C8_start_response_once sampleEnv
    [Event.preRequest, Event.dataProcessed sampleOk]
    ⟨fun _ => Or.inl rfl, trivial⟩

/-- C9: in every valid event sequence of one request, an event that starts
from a state whose done flag is already true enqueues no further chunk into
the chunk queue, on all producing paths (forward data events, the error
renderer, and the tunnel pre-request handler). -/
theorem claim_C9_no_enqueue_after_done (e : Environ) (evs : List Event)
    (hv : ValidRun evs) :
    ∀ p ∈ stepsOf e initState evs, p.1.done = true →
      ∀ a ∈ p.2, isEnq a = false := by
  cases evs with
  | nil => intro p hp; simp [stepsOf] at hp
  | cons ev rest =>
      cases ev with
      | dataProcessed ev => exact absurd hv (by simp [ValidRun])
      | preRequest =>
          intro p hp hpd
          simp only [stepsOf, List.mem_cons, step] at hp
          rcases hp with rfl | hp
          · exact absurd hpd (by simp [initState])
          · exact dp_steps_no_enq e rest (ProxyResponse.pre_request initState)
              hv rfl rfl p hp hpd
      | error a =>
          have hre : rest = [] := hv
          subst hre
          intro p hp hpd
          simp only [stepsOf, List.mem_cons] at hp
          rcases hp with rfl | hp
          · exact absurd hpd (by simp [initState])
          · simp [stepsOf] at hp
      | tunnelPreRequest =>
          intro p hp hpd
          rcases hv with rfl | ⟨a, rfl⟩
          · simp only [stepsOf, List.mem_cons] at hp
            rcases hp with rfl | hp
            · exact absurd hpd (by simp [initState])
            · simp [stepsOf] at hp
          · simp only [stepsOf, List.mem_cons, step] at hp
            rcases hp with rfl | hp
            · exact absurd hpd (by simp [initState])
            · rcases hp with rfl | hp
              · intro x hx
                rw [error_of_started e a _ rfl] at hx
                simp at hx
              · simp [stepsOf] at hp

/-- The step reached after a tunnel pre-request marked the response done: the
state before the trailing error event, which performs no action. -/
def c9SamplePair : RState × List Act :=
  ({ started := true, headers := none, done := true, queue := [[]] }, [])

/-- Witness for C9: after the tunnel pre-request marks the response done, the
error event that may still fire enqueues nothing. -/
theorem claim_C9_witness : c9SamplePair.2.all (fun a => !(isEnq a)) = true := by
  have h := claim_C9_no_enqueue_after_done sampleEnv
    [Event.tunnelPreRequest, Event.error (fun m => m == "text/html")]
    (Or.inr ⟨_, rfl⟩) c9SamplePair (by decide) (by decide)
  rw [List.all_eq_true]
  intro a ha
  simpa using h a ha

/-- C10: when the environ carries no inbound body stream, both body-reading
sites substitute an empty in-memory stream: the up-front read (when Expect is
not 100-continue) reads the empty body and passes it to the dispatch, and the
deferred read on upstream `100 Continue` reads and writes the empty body
upstream; neither site can fail for lack of a stream. -/
theorem claim_C10_missing_input (mws : List Middleware) (e : Environ)
    (s : RState) (ev : UpstreamEvent) (h : e.wsgiInput = none) :
    readInput e = [] ∧
    (e.rawUri ≠ "" → startsWithSlash e.rawUri = false →
      e.httpExpect ≠ some "100-continue" →
      ∃ r, call mws e = Except.ok r ∧ r.data = some [] ∧
        r.actions.head? = some (Act.readBody [])) ∧
    (ev.status = "100 Continue" →
      ∃ rest, (data_processed e s ev).2 =
        Act.readBody [] :: Act.transportWrite [] :: rest) := by
  have hread : readInput e = [] := by simp [readInput, h]
  refine ⟨hread, ?_, ?_⟩
  · intro h1 h2 hx
    have hg : ¬(e.rawUri = "" ∨ startsWithSlash e.rawUri = true) := by
      simp [h1, h2]
    unfold call
    rw [if_neg hg, if_pos hx]
    exact ⟨_, rfl, by simp [hread], by simp [hread]⟩
  · intro h100
    have hpre : acts100 e ev = [Act.readBody [], Act.transportWrite []] := by
      simp [acts100, h100, hread]
    cases hc : ev.headersComplete
    · rw [dp_eq_noHC e s ev hc, hpre]; exact ⟨[], rfl⟩
    · cases hh : s.headers with
      | none => rw [dp_eq_flush e s ev hc hh, hpre]; exact ⟨_, rfl⟩
      | some hs0 => rw [dp_eq_body e s ev hs0 hc hh, hpre]; exact ⟨_, rfl⟩

/-- Witness for C10: the up-front body read with a missing wsgi.input stream
reads an empty body. -/
theorem claim_C10_witness :
    ∃ r, call [] { sampleEnv with wsgiInput := none } = Except.ok r ∧
      r.data = some [] ∧ r.actions.head? = some (Act.readBody []) :=
  (claim_C10_missing_input [] { sampleEnv with wsgiInput := none } initState
    sampleOk rfl).2.1 (by decide) (by decide) (by decide)
